import Mathlib

/-!
Verification development for the forex-dash trading core.

The definitions below are a shallow embedding of the repository's
TypeScript core: the portfolio ledger reducer (store/portfolioSlice,
`placeOrder`), the market-data feed state machine (services/feed.ts,
class `PriceFeed`), the subscriber fan-out, the synthetic price
generator, and the valuation functions of components/Portfolio.tsx.
JavaScript numbers are modelled as rationals (ℚ); externally generated
values (nanoid ids, Date.now timestamps, Math.random draws) are passed
in as explicit parameters.
-/

/-- Source `types.ts`: `SymbolCode = 'EURUSD' | 'GBPUSD' | 'XAUUSD'`. -/
inductive SymbolCode
  | EURUSD
  | GBPUSD
  | XAUUSD
deriving DecidableEq

/-- Trade side, from `types.ts`: `side: 'BUY' | 'SELL'`. -/
inductive Side
  | BUY
  | SELL
deriving DecidableEq

/-- Source `types.ts` `Tick`: symbol, price, epoch-second timestamp. -/
structure Tick where
  symbol : SymbolCode
  price : ℚ
  ts : ℤ
deriving DecidableEq

/-- Source `types.ts` `Position`: signed quantity, average fill price. -/
structure Position where
  symbol : SymbolCode
  qty : ℚ
  avgPrice : ℚ
deriving DecidableEq

/-- Source `types.ts` `Trade`. The `nanoid()` string id is modelled as a
Nat supplied by the caller. -/
structure Trade where
  id : ℕ
  symbol : SymbolCode
  qty : ℚ
  price : ℚ
  ts : ℤ
  side : Side
deriving DecidableEq

/-- Source `constants.ts` `SYMBOLS`. -/
def SYMBOLS : List SymbolCode := [SymbolCode.EURUSD, SymbolCode.GBPUSD, SymbolCode.XAUUSD]

/-- Source `constants.ts` `STARTING_PRICES`. -/
def STARTING_PRICES : SymbolCode → ℚ
  | SymbolCode.EURUSD => 1085 / 1000
  | SymbolCode.GBPUSD => 1270 / 1000
  | SymbolCode.XAUUSD => 2350

/-- Portfolio slice state (`portfolioSlice`): cash, per-symbol optional
position, most-recent-first trade log. -/
structure PortfolioState where
  cash : ℚ
  positions : SymbolCode → Option Position
  trades : List Trade

/-- `initialState` of the portfolio slice: 100000 cash, no positions,
empty trade log. -/
def initialState : PortfolioState :=
  ⟨100000, fun _ => none, []⟩

/-- `OrderPayload` of the portfolio slice: positive qty buys, negative
qty sells. -/
structure OrderPayload where
  symbol : SymbolCode
  qty : ℚ
  price : ℚ
deriving DecidableEq

/-- Pointwise update of the positions record at one symbol. -/
def setPos (ps : SymbolCode → Option Position) (sym : SymbolCode) (p : Option Position) :
    SymbolCode → Option Position :=
  fun s => if s = sym then p else ps s

/-- JavaScript `Math.sign` on rationals. -/
def msign (x : ℚ) : ℚ :=
  if 0 < x then 1 else if x < 0 then -1 else 0

/-- The `prepare` callback of `placeOrder`: derives the side from the
sign of the signed quantity, stores the magnitude, and attaches a
caller-supplied id and timestamp (`nanoid()` / `Date.now()`). -/
def prepareTrade (o : OrderPayload) (tid : ℕ) (ts : ℤ) : Trade :=
  ⟨tid, o.symbol, |o.qty|, o.price, ts, if 0 ≤ o.qty then Side.BUY else Side.SELL⟩

/-- The `placeOrder` reducer body of `portfolioSlice`, verbatim from the
source: cash -= price*qty*sign; create / blend / flip / remove the
position; unshift the trade onto the log. The per-branch mutations of
`state.positions[trade.symbol]` are rendered as one pointwise update
with the branch-selected entry. Note: the reducer performs no validation
of price or quantity. -/
def placeOrderReducer (s : PortfolioState) (trade : Trade) : PortfolioState :=
  let sign : ℚ := if trade.side = Side.BUY then 1 else -1
  let cost := trade.price * trade.qty * sign
  let q := trade.qty * sign
  let entry : Option Position :=
    match s.positions trade.symbol with
    | none => some ⟨trade.symbol, q, trade.price⟩
    | some existing =>
      let prevQty := existing.qty
      let newQty := prevQty + q
      if newQty = 0 then
        none
      else if msign prevQty = msign newQty then
        let totalCost := existing.avgPrice * |prevQty| + trade.price * |q|
        some ⟨existing.symbol, newQty, totalCost / (|prevQty| + |q|)⟩
      else
        let newAvg := if msign newQty ≠ msign prevQty then trade.price else existing.avgPrice
        some ⟨existing.symbol, newQty, newAvg⟩
  ⟨s.cash - cost, setPos s.positions trade.symbol entry, trade :: s.trades⟩

/-- Dispatching `placeOrder(payload)`: `prepare` builds the Trade, the
reducer applies it. -/
def placeOrder (o : OrderPayload) (tid : ℕ) (ts : ℤ) (s : PortfolioState) : PortfolioState :=
  placeOrderReducer s (prepareTrade o tid ts)

/-- A batch of orders dispatched in sequence, each with its generated id
and timestamp. -/
def applyOrders (os : List (OrderPayload × ℕ × ℤ)) (s : PortfolioState) : PortfolioState :=
  os.foldl (fun st o => placeOrder o.1 o.2.1 o.2.2 st) s

/-- The quantity held in a symbol: 0 when no position entry exists. -/
def qtyAt (s : PortfolioState) (sym : SymbolCode) : ℚ :=
  match s.positions sym with
  | none => 0
  | some p => p.qty

/-- Spec §3 invariant: a Position entry exists iff its quantity is
non-zero. -/
def ledgerInv (s : PortfolioState) : Prop :=
  ∀ sym : SymbolCode, (s.positions sym).isSome ↔ qtyAt s sym ≠ 0

/-- Modelled from the spec (§4.3 steps 3–7), for refinement comparison
with the reducer: prevQty/prevAvg default to 0 when absent; newQty = 0
removes; same sign (or no prior position) blends; otherwise the average
resets to the flipping trade's price. -/
def specNewPosition (prev : Option Position) (sym : SymbolCode) (sq price : ℚ) :
    Option Position :=
  let prevQty := match prev with | none => 0 | some p => p.qty
  let prevAvg := match prev with | none => 0 | some p => p.avgPrice
  let newQty := prevQty + sq
  if newQty = 0 then none
  else if msign newQty = msign prevQty ∨ prev = none then
    some ⟨sym, newQty, (prevAvg * |prevQty| + price * |sq|) / (|prevQty| + |sq|)⟩
  else
    some ⟨sym, newQty, price⟩

/-! ### Market data feed (services/feed.ts, class `PriceFeed`) -/

/-- Mutable per-instance fields of `PriceFeed`. `timer` is whether the
simulated-tick interval is active; `ws` whether `this.ws` holds a
socket; `pendingReconnects` counts reconnect `setTimeout`s scheduled but
not yet fired (the source never stores or clears their handles);
`schedDelays` logs the delay passed to each reconnect `setTimeout`,
most recent first. -/
structure FeedState where
  timer : Bool
  ws : Bool
  usingWs : Bool
  reconnectAttempts : ℕ
  isConnected : Bool
  pendingReconnects : ℕ
  schedDelays : List ℕ
deriving DecidableEq

/-- `maxReconnectAttempts = 5` in `PriceFeed`. -/
def maxReconnectAttempts : ℕ := 5

/-- `reconnectDelay = 1000` (ms) in `PriceFeed`. -/
def reconnectDelay : ℕ := 1000

/-- A freshly constructed `PriceFeed`: nothing running, counters zero. -/
def feedInit : FeedState := ⟨false, false, false, 0, false, 0, []⟩

/-- `startSim()`: no-op when the interval already runs, else create it. -/
def startSim (s : FeedState) : FeedState :=
  if s.timer then s else { s with timer := true }

/-- `initWs()`: construct a WebSocket and store it in `this.ws` (the
CONNECTING transition); handlers are installed, no flags are set. -/
def initWs (s : FeedState) : FeedState :=
  { s with ws := true }

/-- `cleanupWs()`: close and drop the socket when present, then clear
`usingWs` and `isConnected`. -/
def cleanupWs (s : FeedState) : FeedState :=
  let s1 := if s.ws then { s with ws := false } else s
  { s1 with usingWs := false, isConnected := false }

/-- `handleReconnect()`: below the cap, bump the attempt counter and
schedule a reconnect `setTimeout` with delay `reconnectDelay *
reconnectAttempts` (the bumped counter); at the cap, fall back to the
simulator. -/
def handleReconnect (s : FeedState) : FeedState :=
  if s.reconnectAttempts < maxReconnectAttempts then
    { s with reconnectAttempts := s.reconnectAttempts + 1,
             pendingReconnects := s.pendingReconnects + 1,
             schedDelays := reconnectDelay * (s.reconnectAttempts + 1) :: s.schedDelays }
  else
    startSim s

/-- `stop()`: clear the interval if any, clean up the socket if any. The
pending reconnect `setTimeout`s are untouched — the source never keeps
their handles. -/
def feedStop (s : FeedState) : FeedState :=
  let s1 := if s.timer then { s with timer := false } else s
  if s1.ws then cleanupWs s1 else s1

/-- `start()`: the Finnhub key is always truthy (a hard-coded default
string is used when the env var is absent), so with no socket present
the live path runs (`initWs(); usingWs = true; return`); otherwise the
else branch starts the simulator. The WebSocket constructor is modelled
as succeeding synchronously, so the catch-branch fallback is not taken. -/
def feedStart (s : FeedState) : FeedState :=
  if ¬ s.ws then { initWs s with usingWs := true } else startSim s

/-- Return type of `getConnectionStatus()`. -/
structure ConnectionStatus where
  isConnected : Bool
  usingWebSocket : Bool
  reconnectAttempts : ℕ
deriving DecidableEq

/-- `getConnectionStatus()`: point-in-time snapshot of the flags. -/
def getConnectionStatus (s : FeedState) : ConnectionStatus :=
  ⟨s.isConnected, s.usingWs, s.reconnectAttempts⟩

/-- Asynchronous events driving one `PriceFeed`: the public calls, the
socket events (delivered only while a socket exists), and the firing of
one pending reconnect timeout. -/
inductive FeedEvent
  | startE
  | stopE
  | wsOpenE
  | wsErrorE
  | wsCloseE
  | reconnectFireE
deriving DecidableEq

/-- One step of the feed's event-driven evolution, each arm transcribing
the corresponding source handler. The reconnect timeout body is
`if (!this.isConnected) this.initWs()`. -/
def feedStep (s : FeedState) : FeedEvent → FeedState
  | FeedEvent.startE => feedStart s
  | FeedEvent.stopE => feedStop s
  | FeedEvent.wsOpenE =>
      if s.ws then { s with isConnected := true, reconnectAttempts := 0 } else s
  | FeedEvent.wsErrorE =>
      if s.ws then handleReconnect { s with isConnected := false } else s
  | FeedEvent.wsCloseE =>
      if s.ws then handleReconnect (cleanupWs { s with isConnected := false }) else s
  | FeedEvent.reconnectFireE =>
      if s.pendingReconnects = 0 then s
      else
        let s1 := { s with pendingReconnects := s.pendingReconnects - 1 }
        if ¬ s1.isConnected then initWs s1 else s1

/-- Run a feed event trace from a given state. -/
def runFeedFrom (s : FeedState) (tr : List FeedEvent) : FeedState :=
  tr.foldl feedStep s

/-- Run a feed event trace from a fresh `PriceFeed`. -/
def runFeed (tr : List FeedEvent) : FeedState :=
  runFeedFrom feedInit tr

/-- A run with three abnormal transport failures. Each failure fires the
socket's error handler and then its close handler (feed.ts lines
107–118), and both handlers call `handleReconnect()`, so every failure
bumps the attempt counter twice and schedules two reconnect timeouts;
the scheduled timeouts fire between failures. -/
def capTrace : List FeedEvent :=
  [FeedEvent.startE, FeedEvent.wsErrorE, FeedEvent.wsCloseE, FeedEvent.reconnectFireE,
   FeedEvent.reconnectFireE, FeedEvent.wsErrorE, FeedEvent.wsCloseE, FeedEvent.reconnectFireE,
   FeedEvent.reconnectFireE, FeedEvent.wsErrorE, FeedEvent.wsCloseE]

/-! ### Subscriber fan-out -/

/-- A subscriber callback; a `none` result models the callback
throwing. -/
def Subscriber : Type := Tick → Option Unit

/-- `this.subs[symbol].forEach(cb => cb(tick))` — JS `Set` iteration is
insertion order, and an exception thrown by a callback propagates out of
`forEach`, ending the iteration. Returns the registration indices (from
`i`) of the callbacks that were invoked, the throwing one included. -/
def deliverFrom (i : ℕ) (cbs : List Subscriber) (t : Tick) : List ℕ :=
  match cbs with
  | [] => []
  | cb :: rest =>
    match cb t with
    | some _ => i :: deliverFrom (i + 1) rest t
    | none => [i]

/-- A callback that throws on every tick. -/
def cbThrows : Subscriber := fun _ => none

/-- A callback that returns normally on every tick. -/
def cbOk : Subscriber := fun _ => some ()

/-- A sample tick carrying the EURUSD seed price. -/
def tick0 : Tick := ⟨SymbolCode.EURUSD, STARTING_PRICES SymbolCode.EURUSD, 0⟩

/-! ### Synthetic generator (the `startSim` interval callback) -/

/-- Per-instrument volatility: `symbol === 'XAUUSD' ? 0.004 : 0.0003`. -/
def volOf (sym : SymbolCode) : ℚ :=
  if sym = SymbolCode.XAUUSD then 4 / 1000 else 3 / 10000

/-- One random-walk step: `next = last * (1 + (r - 0.5) * vol)` with
`r` a `Math.random()` draw in `[0, 1)`. -/
def simNext (vol last r : ℚ) : ℚ := last * (1 + (r - 1 / 2) * vol)

/-- The stored (unrounded) price after a run of draws. -/
def simRun (vol seed : ℚ) (rs : List ℚ) : ℚ := rs.foldl (simNext vol) seed

/-- `Number(next.toFixed(5))` for a non-negative value: round half away
from zero at the fifth decimal. -/
def tickPrice (x : ℚ) : ℚ := (⌊x * 100000 + 1 / 2⌋ : ℚ) / 100000

/-! ### Valuation (components/Portfolio.tsx) -/

/-- `rowPnl(qty, avg, last)`: 0 when no last price is known. -/
def rowPnl (qty avg : ℚ) (last : Option ℚ) : ℚ :=
  match last with
  | none => 0
  | some l => (l - avg) * qty

/-- `calculateTotalPnl`: reduce over the position entries, skipping
absent positions and unknown prices. -/
def calculateTotalPnl (positions : SymbolCode → Option Position)
    (lastP : SymbolCode → Option ℚ) : ℚ :=
  SYMBOLS.foldl
    (fun total sym =>
      match positions sym with
      | none => total
      | some p =>
        match lastP sym with
        | none => total
        | some l => total + rowPnl p.qty p.avgPrice (some l))
    0

/-- The `totalValue` reduce of `portfolioMetrics`:
`acc + (p ? p.qty * (last[sym] ?? 0) : 0)`. -/
def totalValue (positions : SymbolCode → Option Position)
    (lastP : SymbolCode → Option ℚ) : ℚ :=
  SYMBOLS.foldl
    (fun acc sym =>
      acc + (match positions sym with
             | none => 0
             | some p => p.qty * ((lastP sym).getD 0)))
    0

/-- `equity = cash + totalValue`. -/
def equity (cash : ℚ) (positions : SymbolCode → Option Position)
    (lastP : SymbolCode → Option ℚ) : ℚ :=
  cash + totalValue positions lastP

/-- `dayChangePercent = equity > 0 ? (dayChange / equity) * 100 : 0`
with `dayChange = totalPnl`. -/
def dayChangePercent (cash : ℚ) (positions : SymbolCode → Option Position)
    (lastP : SymbolCode → Option ℚ) : ℚ :=
  if 0 < equity cash positions lastP then
    (calculateTotalPnl positions lastP / equity cash positions lastP) * 100
  else 0

/-- Modelled from the spec (§4.4): per-position unrealized P&L. -/
def unrealizedPnlSpec (p : Position) (last : Option ℚ) : ℚ :=
  match last with
  | none => 0
  | some l => (l - p.avgPrice) * p.qty

/-- Modelled from the spec (§4.4): market value, 0 when the position is
absent or the price unknown. -/
def marketValueSpec (pos : Option Position) (last : Option ℚ) : ℚ :=
  match pos, last with
  | some p, some l => p.qty * l
  | _, _ => 0

/-- Modelled from the spec (§4.4): `totalPnl = Σ unrealizedPnl` over all
held positions. -/
def totalPnlSpec (positions : SymbolCode → Option Position)
    (lastP : SymbolCode → Option ℚ) : ℚ :=
  SYMBOLS.foldl
    (fun acc sym =>
      acc + (match positions sym with
             | none => 0
             | some p => unrealizedPnlSpec p (lastP sym)))
    0

/-- Modelled from the spec (§4.4): `equity = cash + Σ marketValue`. -/
def equitySpec (cash : ℚ) (positions : SymbolCode → Option Position)
    (lastP : SymbolCode → Option ℚ) : ℚ :=
  cash + SYMBOLS.foldl (fun acc sym => acc + marketValueSpec (positions sym) (lastP sym)) 0

/-- Modelled from the spec (§4.4):
`dayChangePercent = equity > 0 ? (totalPnl / equity) * 100 : 0`. -/
def dayChangePercentSpec (cash : ℚ) (positions : SymbolCode → Option Position)
    (lastP : SymbolCode → Option ℚ) : ℚ :=
  if 0 < equitySpec cash positions lastP then
    (totalPnlSpec positions lastP / equitySpec cash positions lastP) * 100
  else 0

/-! ## Theorems -/

/-- The signed quantity reconstructed inside the reducer equals the
payload's signed quantity. -/
theorem prepareTrade_signed (o : OrderPayload) (tid : ℕ) (ts : ℤ) :
    (prepareTrade o tid ts).qty *
      (if (prepareTrade o tid ts).side = Side.BUY then (1 : ℚ) else -1) = o.qty := by
  by_cases h : 0 ≤ o.qty
  · simp [prepareTrade, h, abs_of_nonneg h]
  · push_neg at h
    simp only [prepareTrade, if_neg (not_le.mpr h)]
    simp [abs_of_neg h]

/-- The trade built by `prepare` carries the payload's price and symbol
and the magnitude of its quantity. -/
theorem prepareTrade_fields (o : OrderPayload) (tid : ℕ) (ts : ℤ) :
    (prepareTrade o tid ts).price = o.price ∧ (prepareTrade o tid ts).symbol = o.symbol ∧
      (prepareTrade o tid ts).qty = |o.qty| := ⟨rfl, rfl, rfl⟩

/-- Characterization of the reducer's effect on the traded symbol's
position entry. -/
theorem placeOrder_positions_at (o : OrderPayload) (tid : ℕ) (ts : ℤ) (s : PortfolioState) :
    (placeOrder o tid ts s).positions o.symbol =
      match s.positions o.symbol with
      | none => some ⟨o.symbol, o.qty, o.price⟩
      | some existing =>
        if existing.qty + o.qty = 0 then none
        else if msign existing.qty = msign (existing.qty + o.qty) then
          some ⟨existing.symbol, existing.qty + o.qty,
            (existing.avgPrice * |existing.qty| + o.price * |o.qty|) /
              (|existing.qty| + |o.qty|)⟩
        else
          some ⟨existing.symbol, existing.qty + o.qty, o.price⟩ := by
  have hsq := prepareTrade_signed o tid ts
  have hs : (prepareTrade o tid ts).symbol = o.symbol := rfl
  have hpr : (prepareTrade o tid ts).price = o.price := rfl
  unfold placeOrder placeOrderReducer
  dsimp only
  rw [hsq, hs, hpr]
  cases hp : s.positions o.symbol with
  | none => simp [setPos, hp]
  | some existing =>
    dsimp only
    simp only [setPos]
    rw [if_pos trivial]
    split
    · rfl
    · split
      · rfl
      · rename_i hsgn
        rw [if_pos fun hc => hsgn hc.symm]

/-- The reducer leaves every other symbol's position entry untouched. -/
theorem placeOrder_positions_other (o : OrderPayload) (tid : ℕ) (ts : ℤ) (s : PortfolioState)
    (sym : SymbolCode) (h : sym ≠ o.symbol) :
    (placeOrder o tid ts s).positions sym = s.positions sym := by
  unfold placeOrder placeOrderReducer
  show setPos s.positions o.symbol _ sym = _
  simp [setPos, h]

/-- Cash moves by exactly `-(price * signedQty)` on every dispatch. -/
theorem placeOrder_cash (o : OrderPayload) (tid : ℕ) (ts : ℤ) (s : PortfolioState) :
    (placeOrder o tid ts s).cash = s.cash - o.price * o.qty := by
  have hsq := prepareTrade_signed o tid ts
  have hpr : (prepareTrade o tid ts).price = o.price := rfl
  unfold placeOrder placeOrderReducer
  dsimp only
  rw [mul_assoc, hsq, hpr]

/-- The trade log grows by exactly the prepared trade at the front. -/
theorem placeOrder_trades (o : OrderPayload) (tid : ℕ) (ts : ℤ) (s : PortfolioState) :
    (placeOrder o tid ts s).trades = prepareTrade o tid ts :: s.trades := rfl

/-- A single valid dispatch preserves the presence-iff-nonzero invariant. -/
theorem placeOrder_preserves_inv (o : OrderPayload) (tid : ℕ) (ts : ℤ) (s : PortfolioState)
    (hq : o.qty ≠ 0) (hinv : ledgerInv s) : ledgerInv (placeOrder o tid ts s) := by
  intro sym
  unfold qtyAt
  by_cases hsym : sym = o.symbol
  · subst hsym
    rw [placeOrder_positions_at]
    cases hp : s.positions o.symbol with
    | none => simp [hq]
    | some p =>
      by_cases h0 : p.qty + o.qty = 0
      · simp [h0]
      · by_cases hsgn : msign p.qty = msign (p.qty + o.qty) <;> simp [h0, hsgn]
  · rw [placeOrder_positions_other o tid ts s sym hsym]
    have h := hinv sym
    unfold qtyAt at h
    exact h

/-- C2: starting from the initial Ledger, after any sequence of executed
BUY/SELL orders with non-zero quantity, a Position entry exists for an
instrument iff its quantity is non-zero (an order landing exactly on
zero removes the entry). -/
theorem position_presence_invariant (os : List (OrderPayload × ℕ × ℤ))
    (h : ∀ e ∈ os, e.1.qty ≠ 0) : ledgerInv (applyOrders os initialState) := by
  have hbase : ledgerInv initialState := by
    intro sym
    simp [initialState, qtyAt]
  have main : ∀ (l : List (OrderPayload × ℕ × ℤ)) (s : PortfolioState),
      (∀ e ∈ l, e.1.qty ≠ 0) → ledgerInv s → ledgerInv (applyOrders l s) := by
    intro l
    induction l with
    | nil => exact fun s _ hs => hs
    | cons e rest ih =>
      intro s hl hs
      exact ih _ (fun x hx => hl x (List.mem_cons_of_mem _ hx))
        (placeOrder_preserves_inv _ _ _ _ (hl e (List.mem_cons_self _ _)) hs)
  exact main os initialState h hbase

/-- Witness for C2 at a concrete order sequence (a buy of 1000 EURUSD at
1.0850 followed by a sell of 1000 at 1.0850). -/
theorem position_presence_invariant_witness :
    (∀ e ∈ [((⟨SymbolCode.EURUSD, 1000, 1085 / 1000⟩ : OrderPayload), 1, (0 : ℤ)),
            ((⟨SymbolCode.EURUSD, -1000, 1085 / 1000⟩ : OrderPayload), 2, (1 : ℤ))],
        e.1.qty ≠ 0) ∧
    ledgerInv (applyOrders
      [((⟨SymbolCode.EURUSD, 1000, 1085 / 1000⟩ : OrderPayload), 1, (0 : ℤ)),
       ((⟨SymbolCode.EURUSD, -1000, 1085 / 1000⟩ : OrderPayload), 2, (1 : ℤ))] initialState) :=
  ⟨by decide, position_presence_invariant _ (by decide)⟩

/-- C3: for a valid order (positive price, non-zero signed quantity) on a
state whose stored position (if any) is keyed consistently, cash moves by
exactly `-(price * signedQty)` and the traded symbol's position entry is
exactly the one computed by the spec's steps 3–7 (blend on same
direction or fresh position, reset to the trade price on a direction
flip, removal on exact zero). -/
theorem placeOrder_matches_spec_algorithm (o : OrderPayload) (tid : ℕ) (ts : ℤ)
    (s : PortfolioState)
    (hwf : ∀ p : Position, s.positions o.symbol = some p → p.symbol = o.symbol)
    (_hp : 0 < o.price) (hq : o.qty ≠ 0) :
    (placeOrder o tid ts s).cash = s.cash - o.price * o.qty ∧
    (placeOrder o tid ts s).positions o.symbol =
      specNewPosition (s.positions o.symbol) o.symbol o.qty o.price := by
  refine ⟨placeOrder_cash o tid ts s, ?_⟩
  rw [placeOrder_positions_at]
  unfold specNewPosition
  cases hpp : s.positions o.symbol with
  | none =>
    dsimp only
    rw [if_neg (by simpa using hq), if_pos (Or.inr rfl)]
    have habs : |o.qty| ≠ 0 := fun hc => hq (abs_eq_zero.mp hc)
    simp [mul_div_cancel_right₀ _ habs]
  | some p =>
    have hps : p.symbol = o.symbol := hwf p hpp
    dsimp only
    by_cases h0 : p.qty + o.qty = 0
    · simp [h0]
    · rw [if_neg h0, if_neg h0]
      by_cases hsgn : msign p.qty = msign (p.qty + o.qty)
      · rw [if_pos hsgn, if_pos (Or.inl hsgn.symm), hps]
      · rw [if_neg hsgn,
          if_neg (by rintro (hc | hc); exact hsgn hc.symm; exact Option.noConfusion hc), hps]

/-- Witness for C3: a fresh buy of 1000 EURUSD at 1.0850 on the initial
ledger. -/
theorem placeOrder_matches_spec_algorithm_witness :
    ((∀ p : Position,
        initialState.positions SymbolCode.EURUSD = some p → p.symbol = SymbolCode.EURUSD) ∧
      (0 : ℚ) < 1085 / 1000 ∧ (1000 : ℚ) ≠ 0) ∧
    ((placeOrder ⟨SymbolCode.EURUSD, 1000, 1085 / 1000⟩ 1 0 initialState).cash
        = initialState.cash - (1085 / 1000) * 1000 ∧
      (placeOrder ⟨SymbolCode.EURUSD, 1000, 1085 / 1000⟩ 1 0 initialState).positions
          SymbolCode.EURUSD
        = specNewPosition (initialState.positions SymbolCode.EURUSD) SymbolCode.EURUSD 1000
            (1085 / 1000)) :=
  ⟨⟨fun p h => by simp [initialState] at h, by norm_num, by norm_num⟩,
    placeOrder_matches_spec_algorithm ⟨SymbolCode.EURUSD, 1000, 1085 / 1000⟩ 1 0 initialState
      (fun p h => by simp [initialState] at h) (by norm_num) (by norm_num)⟩

/-- C1: the `placeOrder` reducer performs no validation. A zero-quantity
order on the initial ledger creates a zero-quantity position entry and
prepends a trade, and an order with a negative price moves cash; the
spec requires such orders to be rejected with no Ledger mutation. -/
theorem placeOrder_accepts_invalid_orders :
    (placeOrder ⟨SymbolCode.EURUSD, 0, 1085 / 1000⟩ 1 0 initialState).positions SymbolCode.EURUSD
        = some ⟨SymbolCode.EURUSD, 0, 1085 / 1000⟩ ∧
    (placeOrder ⟨SymbolCode.EURUSD, 0, 1085 / 1000⟩ 1 0 initialState).trades ≠ [] ∧
    (placeOrder ⟨SymbolCode.EURUSD, 1000, -1⟩ 2 0 initialState).cash = 101000 := by
  refine ⟨?_, ?_, ?_⟩
  · norm_num [placeOrder, placeOrderReducer, prepareTrade, setPos, initialState]
  · simp [placeOrder, placeOrderReducer]
  · norm_num [placeOrder, placeOrderReducer, prepareTrade, initialState]

/-- C10: every single dispatch of `placeOrder` prepends exactly one Trade
record to the front of the log (no existing entry altered or reordered)
and leaves the position entry of every other instrument unchanged; cash,
the traded symbol's position and the log are the only fields touched. -/
theorem placeOrder_frame (o : OrderPayload) (tid : ℕ) (ts : ℤ) (s : PortfolioState)
    (sym : SymbolCode) (hsym : sym ≠ o.symbol) :
    (placeOrder o tid ts s).trades = prepareTrade o tid ts :: s.trades ∧
    (placeOrder o tid ts s).positions sym = s.positions sym :=
  ⟨placeOrder_trades o tid ts s, placeOrder_positions_other o tid ts s sym hsym⟩

/-- Witness for C10: a buy of EURUSD leaves the GBPUSD entry alone. -/
theorem placeOrder_frame_witness :
    SymbolCode.GBPUSD ≠ SymbolCode.EURUSD ∧
    ((placeOrder ⟨SymbolCode.EURUSD, 1000, 1085 / 1000⟩ 7 5 initialState).trades
        = prepareTrade ⟨SymbolCode.EURUSD, 1000, 1085 / 1000⟩ 7 5 :: initialState.trades ∧
      (placeOrder ⟨SymbolCode.EURUSD, 1000, 1085 / 1000⟩ 7 5 initialState).positions
          SymbolCode.GBPUSD
        = initialState.positions SymbolCode.GBPUSD) :=
  ⟨by decide,
    placeOrder_frame ⟨SymbolCode.EURUSD, 1000, 1085 / 1000⟩ 7 5 initialState SymbolCode.GBPUSD
      (by decide)⟩

/-- C7 exhibit: three abnormal transport failures — each firing the
error handler and then the close handler, both of which call
`handleReconnect()` — exhaust the reconnect cap with one timeout still
pending: the run ends fallen back (counter at the cap, simulator
interval on, no socket, live flag off) yet `pendingReconnects = 1`, and
the leftover timeout then fires `initWs()` — a CONNECTING transition
after the fallback with no `start()` call, contradicting the claimed
permanence. -/
theorem reconnect_cap_not_permanent :
    (runFeed capTrace).reconnectAttempts = maxReconnectAttempts ∧
    (runFeed capTrace).timer = true ∧
    (runFeed capTrace).ws = false ∧
    (runFeed capTrace).usingWs = false ∧
    (runFeed capTrace).pendingReconnects = 1 ∧
    (feedStep (runFeed capTrace) FeedEvent.reconnectFireE).ws = true := by
  exact ⟨by decide, by decide, by decide, by decide, by decide, by decide⟩

/-- C5 exhibit: after `start()`, a transport close (which schedules a
reconnect timeout), and `stop()`, the reconnect timeout is still pending
— `stop()` cannot cancel it since the source never stores the handle —
and when it fires it calls `initWs()`, re-establishing a connection
after `stop()` returned. -/
theorem stop_leaves_pending_reconnect :
    (runFeed [FeedEvent.startE, FeedEvent.wsCloseE, FeedEvent.stopE]).pendingReconnects = 1 ∧
    (feedStep (runFeed [FeedEvent.startE, FeedEvent.wsCloseE, FeedEvent.stopE])
        FeedEvent.reconnectFireE).ws = true := by
  exact ⟨by decide, by decide⟩

/-- C6 exhibit: a second `start()` is not a no-op — the key is always
truthy and `this.ws` is set, so the else branch runs `startSim()`,
leaving the live socket and the synthetic interval running
concurrently. -/
theorem start_twice_runs_both_sources :
    (runFeed [FeedEvent.startE, FeedEvent.startE]).ws = true ∧
    (runFeed [FeedEvent.startE, FeedEvent.startE]).timer = true ∧
    (runFeed [FeedEvent.startE]).timer = false := by
  exact ⟨by decide, by decide, by decide⟩

/-- C4 exhibit: with two callbacks registered for one instrument and the
first throwing, `forEach` delivery ends at the first callback — the
second, later-registered callback is never invoked with the tick. -/
theorem fanout_aborts_on_throw :
    deliverFrom 0 [cbThrows, cbOk] tick0 = [0] ∧
      1 ∉ deliverFrom 0 [cbThrows, cbOk] tick0 ∧
      deliverFrom 0 [cbOk, cbOk] tick0 = [0, 1] := by
  refine ⟨rfl, ?_, rfl⟩
  intro hc
  simp [deliverFrom, cbThrows] at hc

/-- The stored price after n minimal draws (`Math.random() = 0`) is the
seed shrunk geometrically by `1 - vol/2` per step. -/
theorem simRun_zero_draws (vol seed : ℚ) (n : ℕ) :
    simRun vol seed (List.replicate n 0) = seed * (1 - vol / 2) ^ n := by
  induction n generalizing seed with
  | zero => simp [simRun]
  | succ k ih =>
    rw [List.replicate_succ]
    show simRun vol (simNext vol seed 0) (List.replicate k 0) = _
    rw [ih]
    unfold simNext
    ring

/-- C8 exhibit: 3·10¹¹ consecutive minimal draws (each `Math.random()`
value 0, legal in `[0,1)`) drive the XAUUSD price below 5·10⁻⁶, and the
emitted tick price — `Number(next.toFixed(5))` — is exactly 0, which is
not strictly positive. -/
theorem sim_tick_price_rounds_to_zero :
    tickPrice (simRun (volOf SymbolCode.XAUUSD) (STARTING_PRICES SymbolCode.XAUUSD)
        (List.replicate 300000000000 0)) = 0 ∧
    (∀ r ∈ List.replicate 300000000000 (0 : ℚ), 0 ≤ r ∧ r < 1) := by
  constructor
  · rw [simRun_zero_draws]
    have hseed : STARTING_PRICES SymbolCode.XAUUSD = 2350 := rfl
    have hbase : (1 : ℚ) - volOf SymbolCode.XAUUSD / 2 = 499 / 500 := by
      norm_num [volOf]
    rw [hseed, hbase]
    have hpos : (0 : ℚ) < 2350 * ((499 : ℚ) / 500) ^ 300000000000 := by positivity
    have hbern := one_add_mul_le_pow (show (-2 : ℚ) ≤ 1 / 499 by norm_num) 300000000000
    push_cast at hbern
    have hlt : 2350 * ((499 : ℚ) / 500) ^ 300000000000 < 1 / 200000 := by
      have h1 : ((499 : ℚ) / 500) ^ 300000000000 = (((500 : ℚ) / 499) ^ 300000000000)⁻¹ := by
        rw [show ((499 : ℚ) / 500) = ((500 : ℚ) / 499)⁻¹ by norm_num, inv_pow]
      have h2 : (1 : ℚ) + 300000000000 * (1 / 499) ≤ ((500 : ℚ) / 499) ^ 300000000000 := by
        rw [show ((500 : ℚ) / 499) = 1 + 1 / 499 by norm_num]
        exact hbern
      have h3 : (((500 : ℚ) / 499) ^ 300000000000)⁻¹ ≤
          ((1 : ℚ) + 300000000000 * (1 / 499))⁻¹ :=
        inv_anti₀ (by norm_num) h2
      have h4 : ((499 : ℚ) / 500) ^ 300000000000 ≤
          ((1 : ℚ) + 300000000000 * (1 / 499))⁻¹ := by
        rw [h1]
        exact h3
      have h5 : 2350 * ((499 : ℚ) / 500) ^ 300000000000 ≤
          2350 * ((1 : ℚ) + 300000000000 * (1 / 499))⁻¹ :=
        mul_le_mul_of_nonneg_left h4 (by norm_num)
      refine lt_of_le_of_lt h5 ?_
      norm_num
    clear hbern
    unfold tickPrice
    generalize 2350 * ((499 : ℚ) / 500) ^ 300000000000 = x at hlt hpos ⊢
    have h0 : ⌊x * 100000 + 1 / 2⌋ = 0 := by
      rw [Int.floor_eq_zero_iff, Set.mem_Ico]
      constructor
      · linarith
      · linarith
    rw [h0]
    norm_num
  · intro r hr
    rw [List.eq_of_mem_replicate hr]
    norm_num

/-- C9: the valuation functions of Portfolio.tsx are pure functions of
the ledger snapshot and last-price map computing exactly the spec's
formulas: `rowPnl = (last - avg) * qty` (0 when no price is known), the
total P&L is the sum of per-position unrealized P&L, `equity = cash + Σ
marketValue` (unknown-price positions contributing 0), and
`dayChangePercent = equity > 0 ? (totalPnl / equity) * 100 : 0`. -/
theorem valuation_matches_spec (cash : ℚ) (positions : SymbolCode → Option Position)
    (lastP : SymbolCode → Option ℚ) (qty avg : ℚ) (lastO : Option ℚ) :
    rowPnl qty avg lastO =
      (match lastO with | none => 0 | some l => (l - avg) * qty) ∧
    calculateTotalPnl positions lastP = totalPnlSpec positions lastP ∧
    equity cash positions lastP = equitySpec cash positions lastP ∧
    dayChangePercent cash positions lastP = dayChangePercentSpec cash positions lastP := by
  have hpnl : calculateTotalPnl positions lastP = totalPnlSpec positions lastP := by
    unfold calculateTotalPnl totalPnlSpec SYMBOLS
    simp only [List.foldl]
    cases positions SymbolCode.EURUSD <;> cases lastP SymbolCode.EURUSD <;>
      cases positions SymbolCode.GBPUSD <;> cases lastP SymbolCode.GBPUSD <;>
      cases positions SymbolCode.XAUUSD <;> cases lastP SymbolCode.XAUUSD <;>
      simp [rowPnl, unrealizedPnlSpec]
  have heqt : equity cash positions lastP = equitySpec cash positions lastP := by
    unfold equity totalValue equitySpec SYMBOLS
    simp only [List.foldl]
    cases positions SymbolCode.EURUSD <;> cases lastP SymbolCode.EURUSD <;>
      cases positions SymbolCode.GBPUSD <;> cases lastP SymbolCode.GBPUSD <;>
      cases positions SymbolCode.XAUUSD <;> cases lastP SymbolCode.XAUUSD <;>
      simp [marketValueSpec]
  refine ⟨rfl, hpnl, heqt, ?_⟩
  unfold dayChangePercent dayChangePercentSpec
  rw [hpnl, heqt]

